import Mathlib

/-!
Verification of the actor-based chess core (`src/chess.go`).

The Go program consists of a board goroutine (`runBoard`) owning the
occupancy map `map[coords]piece`, piece goroutines (`spawnPiece`) each
owning a private `{loc, pt}` state, and client helpers (`board.Get`,
`piece.Move`, `coords.Scan`).  We give a shallow embedding: Go channels
become explicit step functions on a `World` state, a blocking send to a
goroutine with no receiver becomes the `blocked` status, and a Go `panic`
becomes the `panicked` status (the state carried alongside is the state at
the moment of the panic; nothing after the panic executes).
-/

namespace Chess

/-- Embeds Go `type coords struct { x, y int }`. -/
structure coords where
  x : Int
  y : Int
deriving DecidableEq, Repr

/-- Embeds Go `type pieceBareType int` with its constants. -/
inductive pieceBareType where
  | PAWN
  | KNIGHT
  | BISHOP
  | ROOK
  | QUEEN
  | KING
deriving DecidableEq, Repr

/-- Embeds Go `type pieceColor int` with its constants. -/
inductive pieceColor where
  | BLACK
  | WHITE
deriving DecidableEq, Repr

/-- Embeds Go `type pieceType struct { t pieceBareType; c pieceColor }`. -/
structure pieceType where
  t : pieceBareType
  c : pieceColor
deriving DecidableEq, Repr

/-- A piece handle.  In Go this is `type piece chan<- pop`: a channel
value, whose zero value is `nil`.  We model handles as tagged ids, with
an explicit `nil` for the channel zero value (what `board.Get` receives
from a closed reply channel when no value was sent). -/
inductive piece where
  | nil
  | mk (id : Nat)
deriving DecidableEq, Repr

/-- Embeds `coords.Scan` (chess.go:18-27): reads two runes `rx`, `ry` and
rejects unless `'A' <= rx <= 'G'` and `'1' <= ry <= '8'` — the upper
column bound in the source is the character `'G'`, transcribed verbatim.
On success it yields `{x: rx-'A', y: ry-'1'}`. -/
def coordsScan (rx ry : Char) : Except String coords :=
  if rx < 'A' ∨ 'G' < rx ∨ ry < '1' ∨ '8' < ry then
    .error ("Illegal chess coordinates: <" ++ String.singleton rx ++ ", " ++
      String.singleton ry ++ ">")
  else
    .ok ⟨(rx.toNat : Int) - ('A'.toNat : Int), (ry.toNat : Int) - ('1'.toNat : Int)⟩

/-- A human-entered two-character location denotes a square on the 8x8
grid when its column is `'A'`..`'H'` and its row is `'1'`..`'8'`
(`coords.String` formats `x` via the 8-column table `"ABCDEFGH"`). -/
def onGrid (rx ry : Char) : Bool :=
  'A' ≤ rx ∧ rx ≤ 'H' ∧ '1' ≤ ry ∧ ry ≤ '8'

/-- Private state of one piece goroutine: the `var loc coords` and
`var pt pieceType` of `spawnPiece` (chess.go:161-162). -/
structure PieceLocal where
  loc : coords
  pt : pieceType
deriving DecidableEq, Repr

/-- Outcome of delivering one message in the embedding:
`ok` — the handler ran to completion;
`panicked` — the handler hit a Go `panic` (fatal, nothing further runs);
`blocked` — the required channel rendezvous can never complete (the
goroutine that should receive has exited), so the sender waits forever. -/
inductive Status where
  | ok
  | panicked
  | blocked
deriving DecidableEq, Repr

/-- The whole system state: each piece goroutine's private state
(`none` = never spawned or already terminated, so its mailbox has no
receiver), and the board goroutine's occupancy map `pieces` of
`runBoard` (chess.go:240). -/
structure World where
  pieces : piece → Option PieceLocal
  boardMap : coords → Option piece

/-- Go map write `m[c] = v` / `delete(m, c)` (with `v = none`). -/
def setMap (m : coords → Option piece) (c : coords) (v : Option piece) :
    coords → Option piece :=
  fun c2 => if c2 = c then v else m c2

/-- Pointwise update of the piece-goroutine table. -/
def setPieces (m : piece → Option PieceLocal) (h : piece)
    (v : Option PieceLocal) : piece → Option PieceLocal :=
  fun g => if g = h then v else m g

/-- Observable interaction steps of a board-message handler, in the order
the handler performs them. -/
inductive Event where
  | evAskCoords (h : piece) (ans : coords)
  | evKill (h : piece)
  | evMapDelete (c : coords)
  | evMapInsert (c : coords) (h : piece)
deriving DecidableEq, Repr

/-- Embeds Go `type bop interface{}` and its variants (chess.go:130-149).
`bopGetAllPieces` carries a stream channel in Go; the streamed reply is
not modelled (no claim concerns it), only that the handler mutates
nothing. -/
inductive bop where
  | bopNewPiece (c : coords) (p : piece)
  | bopMovePiece (f t : coords)
  | bopGetPiece (c : coords)
  | bopGetAllPieces
  | bopDelPiece (p : piece)
deriving DecidableEq, Repr

/-- Result of the board goroutine handling one `bop`. `reply` is the
value sent on a `bopGetPiece` reply channel (`none` = channel closed
without a value). -/
structure BResult where
  status : Status
  world : World
  events : List Event
  reply : Option piece

/-- One iteration of `runBoard`'s message loop (chess.go:239-285),
transcribed case by case:

* `bopNewPiece`: panic if the location is occupied, else insert, then the
  `Printf` does a `t.p.ptype()` round trip to the new piece — if that
  goroutine is not running the board blocks there (map already updated).
* `bopMovePiece`: panic if `from` is empty; else a `p.ptype()` round trip
  (blocks if the piece goroutine is gone), then `delete(pieces, from)`
  followed by `pieces[dst] = p`.
* `bopGetPiece`: send the handle if present, close the channel either way.
* `bopGetAllPieces`: streams handles, no state change.
* `bopDelPiece`: round trip `popGetCoords` to the piece (blocks forever if
  that goroutine already exited), then `popKill` + acknowledgment (the
  piece goroutine exits), then `delete(pieces, coords)` at the coords the
  piece answered.  No registration check of any kind. -/
def runBoardStep (w : World) (o : bop) : BResult :=
  match o with
  | .bopNewPiece c p =>
    match w.boardMap c with
    | some _ => ⟨.panicked, w, [], none⟩
    | none =>
      let w1 : World := ⟨w.pieces, setMap w.boardMap c (some p)⟩
      match w1.pieces p with
      | none => ⟨.blocked, w1, [.evMapInsert c p], none⟩
      | some _ => ⟨.ok, w1, [.evMapInsert c p], none⟩
  | .bopMovePiece f t =>
    match w.boardMap f with
    | none => ⟨.panicked, w, [], none⟩
    | some p =>
      match w.pieces p with
      | none => ⟨.blocked, w, [], none⟩
      | some _ =>
        ⟨.ok, ⟨w.pieces, setMap (setMap w.boardMap f none) t (some p)⟩,
          [.evMapDelete f, .evMapInsert t p], none⟩
  | .bopGetPiece c => ⟨.ok, w, [], w.boardMap c⟩
  | .bopGetAllPieces => ⟨.ok, w, [], none⟩
  | .bopDelPiece p =>
    match w.pieces p with
    | none => ⟨.blocked, w, [], none⟩
    | some s =>
      ⟨.ok, ⟨setPieces w.pieces p none, setMap w.boardMap s.loc none⟩,
        [.evAskCoords p s.loc, .evKill p, .evMapDelete s.loc], none⟩

/-- Embeds `board.Get` (chess.go:153-157): send `bopGetPiece`, then
receive from the reply channel; if the handler closed the channel without
sending, the receive yields the zero value `nil`. -/
def boardGet (w : World) (loc : coords) : piece :=
  match (runBoardStep w (.bopGetPiece loc)).reply with
  | some p => p
  | none => piece.nil

/-- Embeds Go `type pop interface{}` and its variants (chess.go:91-104).
The reply channels of `popGetCoords` / `popGetType` become reply fields
of the step result.  Go's `pop` is an open interface whose unknown
variants panic in `spawnPiece`'s default case; this sum is closed, so
that case has no counterpart. -/
inductive pop where
  | popMove (dst : coords)
  | popSetCoords (c : coords)
  | popGetCoords
  | popKill
  | popSetType (t : pieceType)
  | popGetType
deriving DecidableEq, Repr

/-- Result of delivering one `pop` to a piece goroutine. -/
structure PResult where
  status : Status
  world : World
  replyCoords : Option coords
  replyType : Option pieceType

/-- Delivering one control message to piece goroutine `h`: the rendezvous
send into its mailbox plus one iteration of `spawnPiece`'s loop
(chess.go:160-186).  If the goroutine has exited (or never ran), the send
has no receiver and blocks forever.

* `popMove dst`: send `bopMovePiece{loc, dst}` to the board — the board
  receives it (one `runBoardStep`) — then overwrite `loc = dst`.  If the
  board panicked, the process dies there.
* `popSetCoords` / `popSetType`: overwrite the private field.
* `popGetCoords` / `popGetType`: reply with the private field, close.
* `popKill`: close the acknowledgment channel and return — the goroutine
  exits, so its mailbox has no receiver from now on. -/
def spawnPieceStep (w : World) (h : piece) (op : pop) : PResult :=
  match w.pieces h with
  | none => ⟨.blocked, w, none, none⟩
  | some s =>
    match op with
    | .popMove dst =>
      let br := runBoardStep w (.bopMovePiece s.loc dst)
      match br.status with
      | .ok =>
        ⟨.ok, ⟨setPieces br.world.pieces h (some ⟨dst, s.pt⟩), br.world.boardMap⟩,
          none, none⟩
      | st => ⟨st, br.world, none, none⟩
    | .popSetCoords c =>
      ⟨.ok, ⟨setPieces w.pieces h (some ⟨c, s.pt⟩), w.boardMap⟩, none, none⟩
    | .popGetCoords => ⟨.ok, w, some s.loc, none⟩
    | .popKill => ⟨.ok, ⟨setPieces w.pieces h none, w.boardMap⟩, none, none⟩
    | .popSetType t =>
      ⟨.ok, ⟨setPieces w.pieces h (some ⟨s.loc, t⟩), w.boardMap⟩, none, none⟩
    | .popGetType => ⟨.ok, w, none, some s.pt⟩

/-- Embeds `piece.validate` (chess.go:115-118): the legality hook of the
core is a stub that accepts every move (`return nil`). -/
def validate (_ : coords) : Option String := none

/-- The externally observable actions of one `piece.Move` call, in the
order they happen. -/
inductive MAct where
  | actValidated
  | actSentRelocate (f t : coords)
  | actBoardAccepted
  | actStoredLoc (t : coords)
deriving DecidableEq, Repr

/-- Result of a `piece.Move` call: the error returned to the caller (Go
`error`, `none` = nil), the resulting system state, and the action
trace. -/
structure MResult where
  status : Status
  err : Option String
  world : World
  acts : List MAct

/-- Embeds `piece.Move` (chess.go:120-127) end to end, generalized over
the legality hook `v` (the spec's extension point; the shipped hook is
`validate`, see `pieceMove`): run the hook first — on rejection return
the error without sending anything — otherwise send `popMove` into the
piece's mailbox, whose handler notifies the board and then stores the new
location (`spawnPieceStep`'s `popMove` case, inlined here so the trace
records the send, the board's acceptance, and the store in order). -/
def moveWith (v : coords → Option String) (w : World) (h : piece)
    (dst : coords) : MResult :=
  match v dst with
  | some e => ⟨.ok, some e, w, [.actValidated]⟩
  | none =>
    match w.pieces h with
    | none => ⟨.blocked, none, w, [.actValidated]⟩
    | some s =>
      let br := runBoardStep w (.bopMovePiece s.loc dst)
      match br.status with
      | .ok =>
        ⟨.ok, none,
          ⟨setPieces br.world.pieces h (some ⟨dst, s.pt⟩), br.world.boardMap⟩,
          [.actValidated, .actSentRelocate s.loc dst, .actBoardAccepted,
            .actStoredLoc dst]⟩
      | st => ⟨st, none, br.world, [.actValidated, .actSentRelocate s.loc dst]⟩

/-- `piece.Move` as shipped: `moveWith` at the stub hook. -/
def pieceMove (w : World) (h : piece) (dst : coords) : MResult :=
  moveWith validate w h dst

/-- Running the board goroutine over a list of messages, as `runBoard`'s
loop does; a panic (or a permanently blocked rendezvous) stops the loop
with the state it had reached. -/
def boardRun (w : World) (ops : List bop) : World :=
  match ops with
  | [] => w
  | o :: rest =>
    let r := runBoardStep w o
    match r.status with
    | .ok => boardRun r.world rest
    | _ => r.world

/-- Whether a board message puts a piece at location `L`: `bopNewPiece`
inserts at its coords, `bopMovePiece` inserts at its destination; no other
message creates an entry. -/
def placesAt (L : coords) : bop → Bool
  | .bopNewPiece c _ => decide (c = L)
  | .bopMovePiece _ t => decide (t = L)
  | _ => false

/-! ### Concrete system states used by witnesses and counterexamples -/

/-- A white pawn kind. -/
def ptW : pieceType := ⟨.PAWN, .WHITE⟩

/-- One live piece goroutine `mk 0` at (0,0), registered on the board at
(0,0). -/
def world1 : World :=
  ⟨fun h => if h = piece.mk 0 then some ⟨⟨0, 0⟩, ptW⟩ else none,
   fun c => if c = ⟨0, 0⟩ then some (piece.mk 0) else none⟩

/-- One live piece goroutine `mk 0` at (2,2), but an empty occupancy map:
the handle is registered nowhere. -/
def world2 : World :=
  ⟨fun h => if h = piece.mk 0 then some ⟨⟨2, 2⟩, ptW⟩ else none,
   fun _ => none⟩

/-- Two live piece goroutines: `mk 0` at (0,0) and `mk 1` at (1,1), each
registered at its own location. -/
def world3 : World :=
  ⟨fun h =>
    if h = piece.mk 0 then some ⟨⟨0, 0⟩, ptW⟩
    else if h = piece.mk 1 then some ⟨⟨1, 1⟩, ptW⟩
    else none,
   fun c =>
    if c = ⟨0, 0⟩ then some (piece.mk 0)
    else if c = ⟨1, 1⟩ then some (piece.mk 1)
    else none⟩

/-! ### Helper lemmas -/

theorem setMap_self (m : coords → Option piece) (c : coords)
    (v : Option piece) : setMap m c v c = v := if_pos rfl

theorem setMap_other (m : coords → Option piece) (c : coords)
    (v : Option piece) (c2 : coords) (h : c2 ≠ c) : setMap m c v c2 = m c2 :=
  if_neg h

theorem setPieces_self (m : piece → Option PieceLocal) (h : piece)
    (v : Option PieceLocal) : setPieces m h v h = v := if_pos rfl

theorem setPieces_other (m : piece → Option PieceLocal) (h : piece)
    (v : Option PieceLocal) (g : piece) (hg : g ≠ h) :
    setPieces m h v g = m g := if_neg hg

/-- A board message that does not put a piece at `L` leaves an absent `L`
absent, whatever its outcome. -/
theorem runBoardStep_absent (w : World) (o : bop) (L : coords)
    (h1 : w.boardMap L = none) (h2 : placesAt L o = false) :
    (runBoardStep w o).world.boardMap L = none := by
  cases o with
  | bopNewPiece c p =>
    have hcL : L ≠ c := by
      simp [placesAt] at h2
      exact fun hh => h2 hh.symm
    cases hc : w.boardMap c with
    | some _ => simpa [runBoardStep, hc] using h1
    | none =>
      cases hp : w.pieces p with
      | none => simpa [runBoardStep, hc, hp, setMap_other _ _ _ _ hcL] using h1
      | some _ => simpa [runBoardStep, hc, hp, setMap_other _ _ _ _ hcL] using h1
  | bopMovePiece f t =>
    have htL : L ≠ t := by
      simp [placesAt] at h2
      exact fun hh => h2 hh.symm
    cases hf : w.boardMap f with
    | none => simpa [runBoardStep, hf] using h1
    | some p =>
      cases hp : w.pieces p with
      | none => simpa [runBoardStep, hf, hp] using h1
      | some _ =>
        by_cases hfL : L = f
        · subst hfL
          simp [runBoardStep, hf, hp, setMap_other _ _ _ _ htL, setMap_self]
        · simpa [runBoardStep, hf, hp, setMap_other _ _ _ _ htL,
            setMap_other _ _ _ _ hfL] using h1
  | bopGetPiece c => simpa [runBoardStep] using h1
  | bopGetAllPieces => simpa [runBoardStep] using h1
  | bopDelPiece p =>
    cases hp : w.pieces p with
    | none => simpa [runBoardStep, hp] using h1
    | some s =>
      by_cases hsL : L = s.loc
      · subst hsL
        simp [runBoardStep, hp, setMap_self]
      · simpa [runBoardStep, hp, setMap_other _ _ _ _ hsL] using h1

/-- Over a whole run, a location never placed at stays absent. -/
theorem boardRun_absent (L : coords) (ops : List bop) :
    ∀ w : World, w.boardMap L = none →
    (∀ o ∈ ops, placesAt L o = false) →
    (boardRun w ops).boardMap L = none := by
  induction ops with
  | nil => exact fun w h1 _ => h1
  | cons o rest ih =>
    intro w h1 h2
    have hstep := runBoardStep_absent w o L h1 (h2 o (List.mem_cons_self o rest))
    simp only [boardRun]
    cases hst : (runBoardStep w o).status with
    | ok =>
      simp only [hst]
      exact ih _ hstep (fun o2 ho2 => h2 o2 (List.mem_cons_of_mem o ho2))
    | panicked => simp only [hst]; exact hstep
    | blocked => simp only [hst]; exact hstep

/-! ### Claims -/

/-- Claim C4: the location codec should accept every two-character input
on the 8x8 grid (columns A–H, rows 1–8) and reject everything outside it.
The code's upper column bound is `'G'` (chess.go:21), so the on-grid
input `H1` — whose square (7,0) the formatter would render as `"H1"` via
the table `"ABCDEFGH"` — is rejected with an error instead of being
parsed to (7,0). -/
theorem coordsScan_rejects_grid_column_H :
    onGrid 'H' '1' = true ∧
    coordsScan 'H' '1' = .error "Illegal chess coordinates: <H, 1>" :=
  ⟨rfl, rfl⟩

/-- Claim C6: placing a piece at an already-occupied location panics
(fatal), the occupancy map is not touched at the moment of the panic, and
a lookup against that state still returns the original occupant. -/
theorem place_occupied_is_fatal (w : World) (L : coords) (h0 hNew : piece)
    (hb : w.boardMap L = some h0) :
    (runBoardStep w (.bopNewPiece L hNew)).status = .panicked ∧
    (runBoardStep w (.bopNewPiece L hNew)).world = w ∧
    boardGet (runBoardStep w (.bopNewPiece L hNew)).world L = h0 := by
  refine ⟨?_, ?_, ?_⟩ <;> simp [runBoardStep, boardGet, hb]

theorem place_occupied_is_fatal_witness :
    world1.boardMap ⟨0, 0⟩ = some (piece.mk 0) ∧
    ((runBoardStep world1 (.bopNewPiece ⟨0, 0⟩ (piece.mk 1))).status = .panicked ∧
      (runBoardStep world1 (.bopNewPiece ⟨0, 0⟩ (piece.mk 1))).world = world1 ∧
      boardGet (runBoardStep world1 (.bopNewPiece ⟨0, 0⟩ (piece.mk 1))).world ⟨0, 0⟩ =
        piece.mk 0) :=
  ⟨by decide, place_occupied_is_fatal world1 ⟨0, 0⟩ (piece.mk 0) (piece.mk 1) (by decide)⟩

/-- Claim C7: a relocation whose source location is unoccupied panics
(fatal) with the occupancy map untouched — in particular no entry is
created at the destination. -/
theorem relocate_from_empty_is_fatal (w : World) (f t2 : coords)
    (hf : w.boardMap f = none) :
    (runBoardStep w (.bopMovePiece f t2)).status = .panicked ∧
    (runBoardStep w (.bopMovePiece f t2)).world = w ∧
    (runBoardStep w (.bopMovePiece f t2)).world.boardMap t2 = w.boardMap t2 := by
  refine ⟨?_, ?_, ?_⟩ <;> simp [runBoardStep, hf]

theorem relocate_from_empty_is_fatal_witness :
    world2.boardMap ⟨3, 3⟩ = none ∧
    ((runBoardStep world2 (.bopMovePiece ⟨3, 3⟩ ⟨4, 4⟩)).status = .panicked ∧
      (runBoardStep world2 (.bopMovePiece ⟨3, 3⟩ ⟨4, 4⟩)).world = world2 ∧
      (runBoardStep world2 (.bopMovePiece ⟨3, 3⟩ ⟨4, 4⟩)).world.boardMap ⟨4, 4⟩ =
        world2.boardMap ⟨4, 4⟩) :=
  ⟨rfl, relocate_from_empty_is_fatal world2 ⟨3, 3⟩ ⟨4, 4⟩ rfl⟩

/-- Claim C10: `board.Get` on an unoccupied location returns the
zero-value `nil` handle (the value a receive from the closed reply
channel yields), on an occupied one the stored handle; the handler never
panics or blocks and changes nothing, so `Get` always returns. -/
theorem boardGet_total_nil_on_absent (w : World) (loc : coords) :
    (w.boardMap loc = none → boardGet w loc = piece.nil) ∧
    (∀ p, w.boardMap loc = some p → boardGet w loc = p) ∧
    (runBoardStep w (.bopGetPiece loc)).status = .ok ∧
    (runBoardStep w (.bopGetPiece loc)).world = w := by
  refine ⟨fun h1 => ?_, fun p hp => ?_, rfl, rfl⟩
  · simp [boardGet, runBoardStep, h1]
  · simp [boardGet, runBoardStep, hp]

theorem boardGet_total_nil_on_absent_witness :
    (world1.boardMap ⟨5, 5⟩ = none ∧ boardGet world1 ⟨5, 5⟩ = piece.nil) ∧
    (world1.boardMap ⟨0, 0⟩ = some (piece.mk 0) ∧
      boardGet world1 ⟨0, 0⟩ = piece.mk 0) :=
  ⟨⟨by decide, (boardGet_total_nil_on_absent world1 ⟨5, 5⟩).1 (by decide)⟩,
   ⟨by decide, (boardGet_total_nil_on_absent world1 ⟨0, 0⟩).2.1 (piece.mk 0) (by decide)⟩⟩

/-- Claim C1 fails as stated at `L2 = L1`: the handler deletes the entry
at `from` and then re-inserts the same handle at `to`, so relocating a
piece onto its own square leaves the entry present — the subsequent
lookup at `L1` returns the handle, it does not signal absent.  Concretely
in `world1` (handle `mk 0` at (0,0)), after the move (0,0)→(0,0) the
lookup at (0,0) still returns `mk 0`. -/
theorem relocate_lookup_absent_counterexample :
    (spawnPieceStep world1 (piece.mk 0) (.popMove ⟨0, 0⟩)).status = .ok ∧
    (spawnPieceStep world1 (piece.mk 0) (.popMove ⟨0, 0⟩)).world.boardMap ⟨0, 0⟩ =
      some (piece.mk 0) := by
  constructor <;> decide

/-- Claim C1 (amended with `L2 ≠ L1`): a piece whose goroutine holds
location `L1`, registered at `L1`, processing `Move(L2)` to a distinct
square: the board removes the entry at `L1` and inserts the handle at
`L2` — lookup at `L1` now signals absent, lookup at `L2` returns the
handle — and the goroutine's own stored location (as `popGetCoords`
reports) becomes `L2`. -/
theorem relocate_moves_entry_and_piece_location
    (w : World) (h : piece) (L1 L2 : coords) (t : pieceType)
    (hp : w.pieces h = some ⟨L1, t⟩) (hb : w.boardMap L1 = some h)
    (hne : L2 ≠ L1) :
    (spawnPieceStep w h (.popMove L2)).status = .ok ∧
    (spawnPieceStep w h (.popMove L2)).world.boardMap L1 = none ∧
    (spawnPieceStep w h (.popMove L2)).world.boardMap L2 = some h ∧
    (spawnPieceStep (spawnPieceStep w h (.popMove L2)).world h
      .popGetCoords).replyCoords = some L2 := by
  have hne2 : L1 ≠ L2 := Ne.symm hne
  refine ⟨?_, ?_, ?_, ?_⟩ <;>
    simp [spawnPieceStep, runBoardStep, hp, hb, setMap_self, setPieces_self,
      setMap_other _ _ _ _ hne2, hne2]

theorem relocate_moves_entry_and_piece_location_witness :
    world1.pieces (piece.mk 0) = some ⟨⟨0, 0⟩, ptW⟩ ∧
    world1.boardMap ⟨0, 0⟩ = some (piece.mk 0) ∧
    ((spawnPieceStep world1 (piece.mk 0) (.popMove ⟨3, 3⟩)).status = .ok ∧
      (spawnPieceStep world1 (piece.mk 0) (.popMove ⟨3, 3⟩)).world.boardMap ⟨0, 0⟩ =
        none ∧
      (spawnPieceStep world1 (piece.mk 0) (.popMove ⟨3, 3⟩)).world.boardMap ⟨3, 3⟩ =
        some (piece.mk 0) ∧
      (spawnPieceStep (spawnPieceStep world1 (piece.mk 0) (.popMove ⟨3, 3⟩)).world
        (piece.mk 0) .popGetCoords).replyCoords = some ⟨3, 3⟩) :=
  ⟨by decide, by decide,
    relocate_moves_entry_and_piece_location world1 (piece.mk 0) ⟨0, 0⟩ ⟨3, 3⟩ ptW
      (by decide) (by decide) (by decide)⟩

/-- Claim C2: placing a handle at an unoccupied valid location and then
looking that location up returns the same handle; and over any run of
board messages none of which puts a piece at `L` (neither a placement at
`L` nor a relocation into `L`), a lookup of `L` signals absent (the
zero-value `nil` from the closed reply channel). -/
theorem place_then_lookup_roundtrip (L : coords) :
    (∀ (w : World) (h : piece) (s : PieceLocal),
      w.boardMap L = none → w.pieces h = some s →
      (runBoardStep w (.bopNewPiece L h)).status = .ok ∧
      boardGet (runBoardStep w (.bopNewPiece L h)).world L = h) ∧
    (∀ (w : World) (ops : List bop),
      w.boardMap L = none → (∀ o ∈ ops, placesAt L o = false) →
      boardGet (boardRun w ops) L = piece.nil) := by
  constructor
  · intro w h s h1 h2
    constructor <;> simp [runBoardStep, boardGet, h1, h2, setMap_self]
  · intro w ops h1 h2
    simp [boardGet, runBoardStep, boardRun_absent L ops w h1 h2]

theorem place_then_lookup_roundtrip_witness :
    (world2.boardMap ⟨4, 4⟩ = none ∧
      world2.pieces (piece.mk 0) = some ⟨⟨2, 2⟩, ptW⟩ ∧
      ((runBoardStep world2 (.bopNewPiece ⟨4, 4⟩ (piece.mk 0))).status = .ok ∧
        boardGet (runBoardStep world2 (.bopNewPiece ⟨4, 4⟩ (piece.mk 0))).world
          ⟨4, 4⟩ = piece.mk 0)) ∧
    boardGet (boardRun world2 [.bopNewPiece ⟨2, 2⟩ (piece.mk 0)]) ⟨4, 4⟩ =
      piece.nil :=
  ⟨⟨by decide, by decide,
    (place_then_lookup_roundtrip ⟨4, 4⟩).1 world2 (piece.mk 0) ⟨⟨2, 2⟩, ptW⟩
      (by decide) (by decide)⟩,
   (place_then_lookup_roundtrip ⟨4, 4⟩).2 world2 [.bopNewPiece ⟨2, 2⟩ (piece.mk 0)]
      (by decide) (by decide)⟩

/-- Claim C3: deleting a handle registered at `L` (whose goroutine also
holds `L`) proceeds in order: (1) the private `popGetCoords` round trip,
(2) `popKill` with its acknowledgment, (3) the map deletion at the
answered location — the recorded event trace is exactly that sequence.
The net effect removes exactly the one entry at `L` (every other location
is untouched), and the terminated goroutine accepts no further message:
delivering any `pop` to it afterwards blocks forever. -/
theorem delete_two_phase (w : World) (h : piece) (L : coords) (t : pieceType)
    (_hb : w.boardMap L = some h) (hp : w.pieces h = some ⟨L, t⟩) :
    (runBoardStep w (.bopDelPiece h)).status = .ok ∧
    (runBoardStep w (.bopDelPiece h)).events =
      [.evAskCoords h L, .evKill h, .evMapDelete L] ∧
    (runBoardStep w (.bopDelPiece h)).world.boardMap L = none ∧
    (∀ c, c ≠ L → (runBoardStep w (.bopDelPiece h)).world.boardMap c =
      w.boardMap c) ∧
    (runBoardStep w (.bopDelPiece h)).world.pieces h = none ∧
    (∀ op, (spawnPieceStep (runBoardStep w (.bopDelPiece h)).world h op).status =
      .blocked) := by
  refine ⟨?_, ?_, ?_, fun c hc => ?_, ?_, fun op => ?_⟩
  · simp [runBoardStep, hp]
  · simp [runBoardStep, hp]
  · simp [runBoardStep, hp, setMap_self]
  · simp [runBoardStep, hp, setMap_other _ _ _ _ hc]
  · simp [runBoardStep, hp, setPieces_self]
  · simp [runBoardStep, spawnPieceStep, hp, setPieces_self]

theorem delete_two_phase_witness :
    world1.boardMap ⟨0, 0⟩ = some (piece.mk 0) ∧
    world1.pieces (piece.mk 0) = some ⟨⟨0, 0⟩, ptW⟩ ∧
    ((runBoardStep world1 (.bopDelPiece (piece.mk 0))).status = .ok ∧
      (runBoardStep world1 (.bopDelPiece (piece.mk 0))).events =
        [.evAskCoords (piece.mk 0) ⟨0, 0⟩, .evKill (piece.mk 0),
          .evMapDelete ⟨0, 0⟩] ∧
      (runBoardStep world1 (.bopDelPiece (piece.mk 0))).world.boardMap ⟨0, 0⟩ =
        none ∧
      (∀ c, c ≠ ⟨0, 0⟩ →
        (runBoardStep world1 (.bopDelPiece (piece.mk 0))).world.boardMap c =
          world1.boardMap c) ∧
      (runBoardStep world1 (.bopDelPiece (piece.mk 0))).world.pieces
        (piece.mk 0) = none ∧
      (∀ op, (spawnPieceStep
        (runBoardStep world1 (.bopDelPiece (piece.mk 0))).world
        (piece.mk 0) op).status = .blocked)) :=
  ⟨by decide, by decide,
    delete_two_phase world1 (piece.mk 0) ⟨0, 0⟩ ptW (by decide) (by decide)⟩

/-- Claim C5 fails as stated: the `bopDelPiece` handler performs no
registration check at all (chess.go:270-279).  In `world2` the handle
`mk 0` is registered at no board location (the occupancy map is empty),
yet Delete completes with status `ok` — the process continues instead of
terminating. -/
theorem delete_unregistered_counterexample :
    (∀ c, world2.boardMap c = none) ∧
    world2.pieces (piece.mk 0) = some ⟨⟨2, 2⟩, ptW⟩ ∧
    (runBoardStep world2 (.bopDelPiece (piece.mk 0))).status = .ok :=
  ⟨fun _ => rfl, by decide, by decide⟩

/-- Claim C5 (amended): Delete never checks registration.  For any handle
whose goroutine is still running — registered on the board or not — the
deletion completes with status `ok`: it asks the piece for its location,
terminates it, and deletes whatever entry sits at the reported location
(a no-op when there is none), leaving every other location untouched.
(Only a handle whose goroutine has already exited makes the board block
forever on the round trip; no path panics.) -/
theorem delete_no_registration_check (w : World) (h : piece) (s : PieceLocal)
    (hp : w.pieces h = some s) :
    (runBoardStep w (.bopDelPiece h)).status = .ok ∧
    (runBoardStep w (.bopDelPiece h)).world.pieces h = none ∧
    (runBoardStep w (.bopDelPiece h)).world.boardMap s.loc = none ∧
    (∀ c, c ≠ s.loc → (runBoardStep w (.bopDelPiece h)).world.boardMap c =
      w.boardMap c) := by
  refine ⟨?_, ?_, ?_, fun c hc => ?_⟩
  · simp [runBoardStep, hp]
  · simp [runBoardStep, hp, setPieces_self]
  · simp [runBoardStep, hp, setMap_self]
  · simp [runBoardStep, hp, setMap_other _ _ _ _ hc]

theorem delete_no_registration_check_witness :
    world2.pieces (piece.mk 0) = some ⟨⟨2, 2⟩, ptW⟩ ∧
    ((runBoardStep world2 (.bopDelPiece (piece.mk 0))).status = .ok ∧
      (runBoardStep world2 (.bopDelPiece (piece.mk 0))).world.pieces
        (piece.mk 0) = none ∧
      (runBoardStep world2 (.bopDelPiece (piece.mk 0))).world.boardMap ⟨2, 2⟩ =
        none ∧
      (∀ c, c ≠ ⟨2, 2⟩ →
        (runBoardStep world2 (.bopDelPiece (piece.mk 0))).world.boardMap c =
          world2.boardMap c)) :=
  ⟨by decide,
    delete_no_registration_check world2 (piece.mk 0) ⟨⟨2, 2⟩, ptW⟩ (by decide)⟩

/-- Claim C8: in a `Move(dst)` call the legality hook runs first — a move
the hook rejects returns that error having sent nothing to the board
(its trace is just the check; the system state is the unchanged `w`) —
and an allowed move's trace is: check, relocation notice to the board,
the board's acceptance, and only then the overwrite of the piece's own
stored location with `dst`.  Stated over an arbitrary hook `v`, the
spec's extension point; the shipped `validate` is its always-`none`
instance (`pieceMove`). -/
theorem move_validates_before_board_notice
    (v : coords → Option String) (w : World) (h : piece) (dst : coords) :
    (∀ e, v dst = some e →
      moveWith v w h dst = ⟨.ok, some e, w, [.actValidated]⟩) ∧
    (∀ (s : PieceLocal) (p : piece) (q : PieceLocal), v dst = none →
      w.pieces h = some s → w.boardMap s.loc = some p → w.pieces p = some q →
      (moveWith v w h dst).status = .ok ∧
      (moveWith v w h dst).acts =
        [.actValidated, .actSentRelocate s.loc dst, .actBoardAccepted,
          .actStoredLoc dst] ∧
      (moveWith v w h dst).world.pieces h = some ⟨dst, s.pt⟩) := by
  constructor
  · intro e he
    simp [moveWith, he]
  · intro s p q hv hs hp hq
    refine ⟨?_, ?_, ?_⟩ <;>
      simp [moveWith, runBoardStep, hv, hs, hp, hq, setPieces_self]

theorem move_validates_before_board_notice_witness :
    ((fun c : coords => if c.x = 9 then some "off the board" else none)
        (⟨9, 0⟩ : coords) = some "off the board" ∧
      moveWith (fun c : coords => if c.x = 9 then some "off the board" else none)
        world1 (piece.mk 0) ⟨9, 0⟩ =
        ⟨.ok, some "off the board", world1, [.actValidated]⟩) ∧
    (validate ⟨3, 3⟩ = none ∧
      world1.pieces (piece.mk 0) = some ⟨⟨0, 0⟩, ptW⟩ ∧
      world1.boardMap ⟨0, 0⟩ = some (piece.mk 0) ∧
      ((moveWith validate world1 (piece.mk 0) ⟨3, 3⟩).status = .ok ∧
        (moveWith validate world1 (piece.mk 0) ⟨3, 3⟩).acts =
          [.actValidated, .actSentRelocate ⟨0, 0⟩ ⟨3, 3⟩, .actBoardAccepted,
            .actStoredLoc ⟨3, 3⟩] ∧
        (moveWith validate world1 (piece.mk 0) ⟨3, 3⟩).world.pieces
          (piece.mk 0) = some ⟨⟨3, 3⟩, ptW⟩)) :=
  ⟨⟨by decide,
    (move_validates_before_board_notice
      (fun c : coords => if c.x = 9 then some "off the board" else none)
      world1 (piece.mk 0) ⟨9, 0⟩).1 "off the board" (by decide)⟩,
   ⟨rfl, by decide, by decide,
    (move_validates_before_board_notice validate world1 (piece.mk 0) ⟨3, 3⟩).2
      ⟨⟨0, 0⟩, ptW⟩ (piece.mk 0) ⟨⟨0, 0⟩, ptW⟩ rfl (by decide) (by decide)
      (by decide)⟩⟩

/-- Claim C9: relocating onto an occupied destination silently overwrites
the entry there: the handler completes with `ok`, the destination now
maps to the relocating handle, the event trace contains no `popKill` of
the previous occupant (whose goroutine state is untouched — it is never
sent Terminate), and — when the destination was its only registration —
no board location maps to it any more. -/
theorem relocate_overwrites_and_leaks (w : World) (f t2 : coords)
    (p q : piece) (sp : PieceLocal)
    (hf : w.boardMap f = some p) (ht : w.boardMap t2 = some q)
    (hpq : p ≠ q) (halive : w.pieces p = some sp)
    (honly : ∀ c, w.boardMap c = some q → c = t2) :
    (runBoardStep w (.bopMovePiece f t2)).status = .ok ∧
    (runBoardStep w (.bopMovePiece f t2)).world.boardMap t2 = some p ∧
    (runBoardStep w (.bopMovePiece f t2)).events =
      [.evMapDelete f, .evMapInsert t2 p] ∧
    (runBoardStep w (.bopMovePiece f t2)).world.pieces q = w.pieces q ∧
    (∀ c, (runBoardStep w (.bopMovePiece f t2)).world.boardMap c ≠ some q) := by
  have hft : f ≠ t2 := by
    intro hEq
    rw [hEq, ht] at hf
    exact hpq (Option.some.inj hf).symm
  refine ⟨?_, ?_, ?_, ?_, fun c => ?_⟩
  · simp [runBoardStep, hf, halive]
  · simp [runBoardStep, hf, halive, setMap_self]
  · simp [runBoardStep, hf, halive]
  · simp [runBoardStep, hf, halive]
  · by_cases hct : c = t2
    · subst hct
      simp [runBoardStep, hf, halive, setMap_self]
      exact fun hEq => hpq hEq
    · by_cases hcf : c = f
      · subst hcf
        simp [runBoardStep, hf, halive, setMap_other _ _ _ _ hct, setMap_self]
      · simp [runBoardStep, hf, halive, setMap_other _ _ _ _ hct,
          setMap_other _ _ _ _ hcf]
        exact fun hEq => hct (honly c hEq)

theorem relocate_overwrites_and_leaks_witness :
    world3.boardMap ⟨0, 0⟩ = some (piece.mk 0) ∧
    world3.boardMap ⟨1, 1⟩ = some (piece.mk 1) ∧
    piece.mk 0 ≠ piece.mk 1 ∧
    world3.pieces (piece.mk 0) = some ⟨⟨0, 0⟩, ptW⟩ ∧
    ((runBoardStep world3 (.bopMovePiece ⟨0, 0⟩ ⟨1, 1⟩)).status = .ok ∧
      (runBoardStep world3 (.bopMovePiece ⟨0, 0⟩ ⟨1, 1⟩)).world.boardMap ⟨1, 1⟩ =
        some (piece.mk 0) ∧
      (runBoardStep world3 (.bopMovePiece ⟨0, 0⟩ ⟨1, 1⟩)).events =
        [.evMapDelete ⟨0, 0⟩, .evMapInsert ⟨1, 1⟩ (piece.mk 0)] ∧
      (runBoardStep world3 (.bopMovePiece ⟨0, 0⟩ ⟨1, 1⟩)).world.pieces
        (piece.mk 1) = world3.pieces (piece.mk 1) ∧
      (∀ c, (runBoardStep world3 (.bopMovePiece ⟨0, 0⟩ ⟨1, 1⟩)).world.boardMap c ≠
        some (piece.mk 1))) :=
  ⟨by decide, by decide, by decide, by decide,
    relocate_overwrites_and_leaks world3 ⟨0, 0⟩ ⟨1, 1⟩ (piece.mk 0) (piece.mk 1)
      ⟨⟨0, 0⟩, ptW⟩ (by decide) (by decide) (by decide) (by decide)
      (fun c hc => by
        by_cases h0 : c = ⟨0, 0⟩
        · simp [world3, h0] at hc
        · by_cases h1 : c = ⟨1, 1⟩
          · exact h1
          · simp [world3, h0, h1] at hc)⟩

end Chess
